import Mathlib

/-!
Verification of the log-command module of `wls-analytics`
(`src/wls_analytics/commands/log.py`).

The Python module is shallowly embedded: each command becomes a pure Lean
function over explicit collaborator oracles (file locator, log reader,
index lookup), and observable side effects (prints, reader open/close,
index writes, pager invocation) become an explicit event trace returned by
the function.  Timestamps and durations are modelled as integers (minutes);
the Python exceptions become `Except` error values.
-/

namespace WlsAnalytics

/-- One classified error occurrence, as produced via the reader method
`entry.to_dict()` and tagged by the orchestrator with `file` and `server`
(`log.py` lines 201-204). -/
structure Entry where
  time : Nat
  flow_id : String
  label : String
  file : String
  server : String
  deriving DecidableEq, Repr

/-- One file span produced by the `get_files` collaborator: a file path and
the byte range relevant to the requested window. -/
structure FileItem where
  file : String
  start_pos : Nat
  end_pos : Nat
  deriving DecidableEq, Repr

/-- Observable effects of the `errors` command: console prints, the
file-locator call, reader open/close, the bulk index write and the table
display. -/
inductive Event where
  | print (s : String)
  | getFiles
  | openReader (f : String)
  | closeReader (f : String)
  | writeIndex
  | displayTable
  deriving DecidableEq, Repr

/-- `os.path.join(DATA_DIR, "wlsanalytics.index")` (`log.py` line 22); the
configured data directory is abstract, so it is a fixed symbolic path. -/
def INDEX_FILE : String := "DATA_DIR/wlsanalytics.index"

/-- How Python prints an optional timestamp inside an f-string:
`None` for an absent value. -/
def pyStrOptTime (t : Option Int) : String :=
  match t with
  | none => "None"
  | some v => toString v

/-- The time-window defaulting logic of the `errors` command
(`log.py` lines 156-163): error when both bounds are absent, default `to`
to the current time, derive `from` from `to - offset` when absent. The
start may remain `none` (open-ended on the left). -/
def resolveWindow (time_from time_to offset : Option Int) (now : Int) :
    Except String (Option Int × Int) :=
  if time_from = none ∧ time_to = none then
    .error "Either --from or --to must be specified."
  else
    let time_to := time_to.getD now
    let time_from :=
      match time_from, offset with
      | none, some off => some (time_to - off)
      | tf, _ => tf
    .ok (time_from, time_to)

/-- Insert an entry into a list, before the first element of time `≥` its
own.  Folding this over the input from the head reproduces the stable sort
`sorted(data, key=lambda x: x["time"])` of `log.py` line 220. -/
def insertByTime (e : Entry) : List Entry → List Entry
  | [] => [e]
  | x :: xs => if e.time ≤ x.time then e :: x :: xs else x :: insertByTime e xs

/-- Stable sort of the collected entries by their `time` field, modelling
`sorted(data, key=lambda x: x["time"])` (`log.py` line 220): the Python sort
is stable, and a stable sort by a total preorder key is unique, so
insertion sort that places an earlier-listed entry before equal-time later
ones computes the same list. -/
def sortByTime : List Entry → List Entry
  | [] => []
  | x :: xs => insertByTime x (sortByTime xs)

theorem insertByTime_perm (e : Entry) (l : List Entry) :
    List.Perm (insertByTime e l) (e :: l) := by
  induction l with
  | nil => simp [insertByTime]
  | cons x xs ih =>
    simp only [insertByTime]
    by_cases h : e.time ≤ x.time
    · simp [h]
    · simp only [h, if_false]
      exact (ih.cons x).trans (List.Perm.swap e x xs)

theorem sortByTime_perm (l : List Entry) : List.Perm (sortByTime l) l := by
  induction l with
  | nil => simp [sortByTime]
  | cons x xs ih =>
    exact (insertByTime_perm x (sortByTime xs)).trans (ih.cons x)

theorem insertByTime_pairwise_le (e : Entry) (l : List Entry)
    (hl : List.Pairwise (fun a b => a.time ≤ b.time) l) :
    List.Pairwise (fun a b => a.time ≤ b.time) (insertByTime e l) := by
  induction l with
  | nil => simp [insertByTime]
  | cons x xs ih =>
    rcases List.pairwise_cons.mp hl with ⟨hx, hxs⟩
    simp only [insertByTime]
    by_cases h : e.time ≤ x.time
    · simp only [h, if_true]
      refine List.pairwise_cons.mpr ⟨?_, hl⟩
      intro b hb
      rcases List.mem_cons.mp hb with hb | hb
      · subst hb
        exact h
      · exact le_trans h (hx b hb)
    · simp only [h, if_false]
      refine List.pairwise_cons.mpr ⟨?_, ih hxs⟩
      intro b hb
      have hmem := (insertByTime_perm e xs).mem_iff.mp hb
      rcases List.mem_cons.mp hmem with hb' | hb'
      · subst hb'
        exact le_of_not_le h
      · exact hx b hb'

theorem sortByTime_pairwise_le (l : List Entry) :
    List.Pairwise (fun a b => a.time ≤ b.time) (sortByTime l) := by
  induction l with
  | nil => simp [sortByTime]
  | cons x xs ih => exact insertByTime_pairwise_le x (sortByTime xs) ih

theorem filter_insertByTime_of_eq (e : Entry) (l : List Entry) (t : Nat)
    (he : e.time = t) :
    (insertByTime e l).filter (fun x => x.time == t) =
      e :: l.filter (fun x => x.time == t) := by
  subst he
  induction l with
  | nil => simp [insertByTime]
  | cons x xs ih =>
    simp only [insertByTime]
    by_cases h : e.time ≤ x.time
    · simp [h, List.filter_cons]
    · have hxt : ¬ x.time = e.time := by omega
      simp only [h, if_false]
      simp [List.filter_cons, hxt, ih]

theorem filter_insertByTime_of_ne (e : Entry) (l : List Entry) (t : Nat)
    (he : ¬ e.time = t) :
    (insertByTime e l).filter (fun x => x.time == t) =
      l.filter (fun x => x.time == t) := by
  induction l with
  | nil => simp [insertByTime, List.filter_cons, he]
  | cons x xs ih =>
    simp only [insertByTime]
    by_cases h : e.time ≤ x.time
    · simp [h, List.filter_cons, he]
    · simp only [h, if_false]
      by_cases hxt : x.time = t
      · simp [List.filter_cons, hxt, ih]
      · simp [List.filter_cons, hxt, ih]

/-- Stability of the sort: at every time key, the sorted list lists exactly
the same entries in the same relative order as the input. -/
theorem sortByTime_filter (l : List Entry) (t : Nat) :
    (sortByTime l).filter (fun x => x.time == t) =
      l.filter (fun x => x.time == t) := by
  induction l with
  | nil => simp [sortByTime]
  | cons x xs ih =>
    simp only [sortByTime]
    by_cases hx : x.time = t
    · rw [filter_insertByTime_of_eq x (sortByTime xs) t hx, ih]
      simp [List.filter_cons, hx]
    · rw [filter_insertByTime_of_ne x (sortByTime xs) t hx, ih]
      simp [List.filter_cons, hx]

/-- Two lists that are permutations of each other and both strictly sorted
by `time` are equal. -/
theorem strict_sorted_unique :
    ∀ (l₁ l₂ : List Entry), List.Perm l₁ l₂ →
      List.Pairwise (fun a b => a.time < b.time) l₁ →
      List.Pairwise (fun a b => a.time < b.time) l₂ → l₁ = l₂ := by
  intro l₁
  induction l₁ with
  | nil =>
    intro l₂ hp _ _
    exact (hp.symm.eq_nil).symm
  | cons a t₁ ih =>
    intro l₂ hp h₁ h₂
    cases l₂ with
    | nil => exact absurd hp.eq_nil (by simp)
    | cons b t₂ =>
      rcases List.pairwise_cons.mp h₁ with ⟨ha, ht₁⟩
      rcases List.pairwise_cons.mp h₂ with ⟨hb, ht₂⟩
      have hab : a = b := by
        have hmem : a ∈ b :: t₂ := hp.mem_iff.mp (by simp)
        rcases List.mem_cons.mp hmem with hmem | hmem
        · exact hmem
        · exfalso
          have hba : b.time < a.time := hb a hmem
          have hmem' : b ∈ a :: t₁ := hp.symm.mem_iff.mp (by simp)
          rcases List.mem_cons.mp hmem' with hmem' | hmem'
          · subst hmem'
            omega
          · have : a.time < b.time := ha b hmem'
            omega
      subst hab
      have htp : List.Perm t₁ t₂ := hp.cons_inv
      rw [ih t₂ htp ht₁ ht₂]

/-- With pairwise-distinct time keys, the sorted output depends only on the
multiset of entries, not on their input order. -/
theorem sortByTime_perm_invariant (l l' : List Entry)
    (hperm : List.Perm l l')
    (hdist : List.Pairwise (fun a b => ¬ a.time = b.time) l) :
    sortByTime l = sortByTime l' := by
  have hdist' : List.Pairwise (fun a b => ¬ a.time = b.time) l' := by
    refine (List.Perm.pairwise_iff ?_ hperm).mp hdist
    intro a b h
    omega
  have hs : List.Pairwise (fun a b => ¬ a.time = b.time) (sortByTime l) := by
    refine (List.Perm.pairwise_iff ?_ (sortByTime_perm l)).mpr hdist
    intro a b h
    omega
  have hs' : List.Pairwise (fun a b => ¬ a.time = b.time) (sortByTime l') := by
    refine (List.Perm.pairwise_iff ?_ (sortByTime_perm l')).mpr hdist'
    intro a b h
    omega
  have hlt : List.Pairwise (fun a b => a.time < b.time) (sortByTime l) := by
    have := (sortByTime_pairwise_le l).and hs
    exact this.imp (fun h => by omega)
  have hlt' : List.Pairwise (fun a b => a.time < b.time) (sortByTime l') := by
    have := (sortByTime_pairwise_le l').and hs'
    exact this.imp (fun h => by omega)
  exact strict_sorted_unique _ _
    (((sortByTime_perm l).trans hperm).trans (sortByTime_perm l').symm) hlt hlt'

/-- The inner `_read_entries` helper of the `errors` command
(`log.py` lines 194-206): open a reader on the file, read the classified
errors from `start_pos` up to `time_to`, tag each with its source file and
server, and close the reader in a `finally` block — so the close event is
emitted whether reading succeeds or raises, and a read error is re-raised
unchanged.  The reader is an oracle `read file start_pos time_to`. -/
def read_entries (read : String → Nat → Int → Except String (List Entry))
    (time_to : Int) (server : String) (item : FileItem) :
    List Event × Except String (List Entry) :=
  ([.openReader item.file, .closeReader item.file],
   match read item.file item.start_pos time_to with
   | .ok entries =>
       .ok (entries.map (fun e => { e with file := item.file, server := server }))
   | .error e => .error e)

/-- The inner loop of `log.py` lines 208-210 over the file items of one server,
in discovery order, stopping at the first read error (which propagates). -/
def scanItems (read : String → Nat → Int → Except String (List Entry))
    (time_to : Int) (server : String) :
    List FileItem → List Event × Except String (List (FileItem × List Entry))
  | [] => ([], .ok [])
  | item :: rest =>
    let (ev, r) := read_entries read time_to server item
    match r with
    | .error e => (ev, .error e)
    | .ok data =>
      let (ev2, r2) := scanItems read time_to server rest
      match r2 with
      | .error e => (ev ++ ev2, .error e)
      | .ok others => (ev ++ ev2, .ok ((item, data) :: others))

/-- The outer loop of `log.py` lines 208-210 over the
server → file-items mapping, in discovery order. -/
def scanAll (read : String → Nat → Int → Except String (List Entry))
    (time_to : Int) :
    List (String × List FileItem) →
      List Event × Except String (List (String × List (FileItem × List Entry)))
  | [] => ([], .ok [])
  | (server, items) :: rest =>
    let (ev, r) := scanItems read time_to server items
    match r with
    | .error e => (ev, .error e)
    | .ok data =>
      let (ev2, r2) := scanAll read time_to rest
      match r2 with
      | .error e => (ev ++ ev2, .error e)
      | .ok others => (ev ++ ev2, .ok ((server, data) :: others))

/-- Flattening of the per-file result lists in server/file discovery order,
modelling the `data.extend(item["data"])` loop of `log.py` lines 215-218. -/
def concatData (results : List (String × List (FileItem × List Entry))) :
    List Entry :=
  results.foldr (fun p acc => p.2.foldr (fun q acc2 => q.2 ++ acc2) acc) []

/-- The `errors` command (`log.py` lines 151-238) as a pure function from
its CLI inputs and collaborator oracles (`locate` models `get_files`,
`read` models `SOALogReader.read_errors`) to the event trace and either the
final displayed entry list or the propagated error.  Configuration lookup
of the log set is assumed successful (the set exists). -/
def errorsCmd (time_from time_to offset : Option Int) (now : Int)
    (set_name : String)
    (locate : Option Int → Int → List (String × List FileItem))
    (read : String → Nat → Int → Except String (List Entry)) :
    List Event × Except String (List Entry) :=
  match resolveWindow time_from time_to offset now with
  | .error e => ([], .error e)
  | .ok (tf, tt) =>
    let ev0 : List Event :=
      [.print ("-- Time range: " ++ pyStrOptTime tf ++ " - " ++ toString tt),
       .print ("-- Searching files in the set '" ++ set_name ++ "'"),
       .getFiles]
    let soa_files := locate tf tt
    if soa_files = [] then
      (ev0 ++ [.print "-- No files found."], .ok [])
    else
      let (scanEv, scanRes) := scanAll read tt soa_files
      match scanRes with
      | .error e => (ev0 ++ scanEv, .error e)
      | .ok results =>
        let data := sortByTime (concatData results)
        if data = [] then
          (ev0 ++ scanEv ++ [.writeIndex, .print "-- No errors found."], .ok data)
        else
          (ev0 ++ scanEv ++
             [.writeIndex, .print "-- Completed", .displayTable,
              .print ("-- Errors: " ++ toString data.length)], .ok data)

/-- Number of `openReader f` events in a trace. -/
def countOpen (f : String) (l : List Event) : Nat :=
  l.countP (fun e => match e with | .openReader g => g == f | _ => false)

/-- Number of `closeReader f` events in a trace. -/
def countClose (f : String) (l : List Event) : Nat :=
  l.countP (fun e => match e with | .closeReader g => g == f | _ => false)

theorem countOpen_append (f : String) (l₁ l₂ : List Event) :
    countOpen f (l₁ ++ l₂) = countOpen f l₁ + countOpen f l₂ := by
  simp [countOpen, List.countP_append]

theorem countClose_append (f : String) (l₁ l₂ : List Event) :
    countClose f (l₁ ++ l₂) = countClose f l₁ + countClose f l₂ := by
  simp [countClose, List.countP_append]

/-- Every reader opened by the per-server loop is also closed, whatever the
read results: the open/close events in the scan trace are balanced. -/
theorem scanItems_balanced (read : String → Nat → Int → Except String (List Entry))
    (time_to : Int) (server : String) (items : List FileItem) (f : String) :
    countOpen f (scanItems read time_to server items).1 =
      countClose f (scanItems read time_to server items).1 := by
  induction items with
  | nil => simp [scanItems, countOpen, countClose]
  | cons item rest ih =>
    simp only [scanItems, read_entries]
    cases hr : read item.file item.start_pos time_to with
    | error e =>
      simp [hr, countOpen, countClose, List.countP_cons]
    | ok entries =>
      simp only [hr]
      cases h2 : scanItems read time_to server rest with
      | mk ev2 r2 =>
        have ih' := ih
        rw [h2] at ih'
        cases r2 with
        | error e =>
          simp only []
          rw [countOpen_append, countClose_append]
          simp [countOpen, countClose, List.countP_cons] at ih' ⊢
          omega
        | ok others =>
          simp only []
          rw [countOpen_append, countClose_append]
          simp [countOpen, countClose, List.countP_cons] at ih' ⊢
          omega

/-- Open/close balance for the whole scan. -/
theorem scanAll_balanced (read : String → Nat → Int → Except String (List Entry))
    (time_to : Int) (files : List (String × List FileItem)) (f : String) :
    countOpen f (scanAll read time_to files).1 =
      countClose f (scanAll read time_to files).1 := by
  induction files with
  | nil => simp [scanAll, countOpen, countClose]
  | cons p rest ih =>
    obtain ⟨server, items⟩ := p
    simp only [scanAll]
    cases h1 : scanItems read time_to server items with
    | mk ev r =>
      have hbal := scanItems_balanced read time_to server items f
      rw [h1] at hbal
      cases r with
      | error e => simpa using hbal
      | ok data =>
        cases h2 : scanAll read time_to rest with
        | mk ev2 r2 =>
          have ih' := ih
          rw [h2] at ih'
          cases r2 with
          | error e =>
            simp only []
            rw [countOpen_append, countClose_append, hbal, ih']
          | ok others =>
            simp only []
            rw [countOpen_append, countClose_append, hbal, ih']

/-- The opening brace character. -/
def lbrace : Char := Char.ofNat 123

/-- The closing brace character. -/
def rbrace : Char := Char.ofNat 125

/-- Numbering state of a format template: the Python `str.format` starts
undecided, then commits to automatic (`\x7b\x7d`, tracking the next index)
or manual (`\x7bn\x7d`) field numbering and errors when they are mixed. -/
inductive FmtMode where
  | undecided
  | auto (next : Nat)
  | manual
  deriving DecidableEq, Repr

/-- Numeric value of a digit-only field. -/
def digitsToNat (cs : List Char) : Nat :=
  cs.foldl (fun acc c => acc * 10 + (c.toNat - 48)) 0

/-- Resolve one replacement field: an empty field uses (and advances) the
automatic counter, a digit-only field is a manual index, anything else —
including mixing automatic and manual numbering — fails. -/
def fieldIndex (mode : FmtMode) (field : List Char) : Option (Nat × FmtMode) :=
  if field = [] then
    match mode with
    | .manual => none
    | .undecided => some (0, .auto 1)
    | .auto k => some (k, .auto (k + 1))
  else if field.all (fun c => c.isDigit) then
    match mode with
    | .auto _ => none
    | _ => some (digitsToNat field, .manual)
  else none

/-- Core of the `str.format` model: walk the template; `state = some acc`
means we are inside a replacement field with `acc` the reversed field
characters.  `none` is any formatting failure (unterminated or malformed
field, index beyond the argument list, mixed numbering). This models the
positional-field subset of the Python `str.format` that label templates use
(no attribute access, conversion or format-spec suffixes). -/
def pyFmt (args : List String) : FmtMode → Option (List Char) → List Char →
    Option String
  | _, none, [] => some ""
  | _, some _, [] => none
  | mode, none, [c] =>
    if c = lbrace then none
    else if c = rbrace then none
    else (String.singleton c ++ ·) <$> pyFmt args mode none []
  | mode, none, c :: c2 :: rest2 =>
    if c = lbrace then
      if c2 = lbrace then ("\x7b" ++ ·) <$> pyFmt args mode none rest2
      else pyFmt args mode (some []) (c2 :: rest2)
    else if c = rbrace then
      if c2 = rbrace then ("\x7d" ++ ·) <$> pyFmt args mode none rest2
      else none
    else (String.singleton c ++ ·) <$> pyFmt args mode none (c2 :: rest2)
  | mode, some acc, c :: rest =>
    if c = rbrace then
      match fieldIndex mode acc.reverse with
      | none => none
      | some (i, mode2) =>
        match args.get? i with
        | none => none
        | some v => (v ++ ·) <$> pyFmt args mode2 none rest
    else pyFmt args mode (some (c :: acc)) rest

/-- `label.format(*args)` for a label template: `some` the substituted
string, `none` any formatting failure. -/
def pyFormat (label : String) (args : List String) : Option String :=
  pyFmt args .undecided none label.toList

/-- `make_label_function` (`log.py` lines 124-134): binds the template to a
function of the captured groups of the match; `label.format(*list([""] +
list(m.groups())))` prepends an empty string so `\x7b0\x7d` is inert, and
the surrounding `try`/`except` turns every failure into the sentinel
`"__internal_error__"`. -/
def make_label_function (label : String) : List String → String :=
  fun groups =>
    match pyFormat label ("" :: groups) with
    | some s => s
    | none => "__internal_error__"

/-- One declarative labelling rule: a regex pattern and a label template. -/
structure Rule where
  pattern : String
  label : String
  deriving DecidableEq, Repr

/-- One rule-set definition: the set names it belongs to and its rules. -/
structure ParserDef where
  sets : List String
  rules : List Rule
  deriving DecidableEq, Repr

/-- One compiled rule: the pattern and the bound total label function. -/
structure CompiledRule where
  pattern : String
  label : List String → String

/-- `load_parser` (`log.py` lines 137-143; renamed here): keep the rule
definitions whose `sets` intersect the requested set names
(`any(item in parser_def["sets"] for item in sets)`) and append their
rules, in definition order, each with its label template bound through
`make_label_function`. -/
def load_parser_rules (parsers_def : List ParserDef) (sets : List String) :
    List CompiledRule :=
  parsers_def.foldl
    (fun acc pd =>
      if sets.any (fun item => pd.sets.contains item) then
        acc ++ pd.rules.map
          (fun r => { pattern := r.pattern, label := make_label_function r.label })
      else acc) []

/-- The spec-side characterisation of rule selection: filter the
definitions whose owning sets intersect the request, then concatenate their
compiled rules in definition order. -/
def selectedRules (parsers_def : List ParserDef) (sets : List String) :
    List CompiledRule :=
  (parsers_def.filter (fun pd => sets.any (fun item => pd.sets.contains item))).flatMap
    (fun pd => pd.rules.map
      (fun r => { pattern := r.pattern, label := make_label_function r.label }))

theorem load_parser_rules_go (parsers_def : List ParserDef) (sets : List String) :
    ∀ acc : List CompiledRule,
      parsers_def.foldl
        (fun acc pd =>
          if sets.any (fun item => pd.sets.contains item) then
            acc ++ pd.rules.map
              (fun r => { pattern := r.pattern, label := make_label_function r.label })
          else acc) acc = acc ++ selectedRules parsers_def sets := by
  induction parsers_def with
  | nil => intro acc; simp [selectedRules]
  | cons pd rest ih =>
    intro acc
    simp only [List.foldl_cons]
    by_cases h : (sets.any (fun item => pd.sets.contains item)) = true
    · rw [if_pos h, ih]
      have h2 : ∃ x ∈ sets, x ∈ pd.sets := by simpa using h
      simp [selectedRules, List.filter_cons, h2, List.append_assoc]
    · rw [if_neg h, ih]
      have h2 : ¬ ∃ x ∈ sets, x ∈ pd.sets := by simpa using h
      simp [selectedRules, List.filter_cons, h2]

/-- The whitespace characters that the Python `int` strips from both ends. -/
def pyIsSpace (c : Char) : Bool :=
  c == ' ' || c == '\t' || c == '\n' || c == '\r' || c == '\x0b' || c == '\x0c'

/-- ASCII decimal digit test. -/
def pyIsDigit (c : Char) : Bool :=
  48 ≤ c.toNat && c.toNat ≤ 57

/-- Digit run with the Python underscore rule: single underscores allowed
between digits only (`int("5_0") = 50`, `int("5_") `/` int("5__0")` fail). -/
def pyDigitsAux (acc : Nat) : List Char → Option Nat
  | [] => some acc
  | c :: cs =>
    if pyIsDigit c then pyDigitsAux (acc * 10 + (c.toNat - 48)) cs
    else if c = '_' then
      match cs with
      | [] => none
      | c2 :: cs2 =>
        if pyIsDigit c2 then pyDigitsAux (acc * 10 + (c2.toNat - 48)) cs2 else none
    else none

/-- Parse a non-empty digit run (with underscore rule). -/
def pyDigits : List Char → Option Nat
  | [] => none
  | c :: cs => if pyIsDigit c then pyDigitsAux (c.toNat - 48) cs else none

/-- Optional sign followed by a non-empty digit run. -/
def pySigned : List Char → Option Int
  | [] => none
  | c :: rest =>
    if c = '-' then (pyDigits rest).map (fun n => -(n : Int))
    else if c = '+' then (pyDigits rest).map (fun n => (n : Int))
    else (pyDigits (c :: rest)).map (fun n => (n : Int))

/-- The Python `int(str)`: strip whitespace from both ends, then an optional
sign followed by a non-empty digit run; `none` models `ValueError`. -/
def pyIntChars (cs : List Char) : Option Int :=
  pySigned ((cs.dropWhile pyIsSpace).reverse.dropWhile pyIsSpace).reverse

/-- `int(value[:-1])` as used by `OffsetOption.type_cast_value`. -/
def pyInt (s : String) : Option Int :=
  pyIntChars s.toList

/-- How `OffsetOption.type_cast_value` can fail: `click.BadParameter` from
the explicit `raise`, or the `IndexError` that `value[-1]` raises on an
empty string (`log.py` line 52), which nothing catches. -/
inductive OffsetErr where
  | badParameter (msg : String)
  | indexError
  deriving DecidableEq, Repr

/-- The unit letters of `offset_units` (`log.py` line 51), with the length of each
unit in minutes (`timedelta(hours=·)`, `timedelta(days=·)`,
`timedelta(minutes=·)`). -/
def OFFSET_UNITS : List (Char × Int) := [('h', 60), ('d', 1440), ('m', 1)]

/-- `OffsetOption.type_cast_value` (`log.py` lines 47-60) on a present
string value: look at the last character; if it is a unit letter, parse the
rest with `int` and build the duration (in minutes here); otherwise, or on
a parse failure, raise `BadParameter`.  On the empty string `value[-1]`
itself raises `IndexError`. -/
def type_cast_offset (value : String) : Except OffsetErr Int :=
  match value.toList.getLast? with
  | none => .error .indexError
  | some u =>
    match OFFSET_UNITS.lookup u with
    | some mult =>
      match pyInt (String.mk value.toList.dropLast) with
      | some n => .ok (n * mult)
      | none => .error (.badParameter "use values like '1h', '2d', '10m'.")
    | none => .error (.badParameter "use values like '1h', '2d', '10m'.")

/-- The accepted set as the claim words it: an integer (optional
sign, then digits) immediately followed by one of the unit letters
`h`, `d`, `m`, and nothing else. -/
def offsetClaimForm (s : String) : Bool :=
  match s.toList.getLast? with
  | none => false
  | some u =>
    (OFFSET_UNITS.lookup u).isSome &&
      (match s.toList.dropLast with
       | [] => false
       | c :: cs =>
         let ds := if c = '-' ∨ c = '+' then cs else c :: cs
         !ds.isEmpty && ds.all pyIsDigit)

/-- The persisted index, as the viewer sees it: identifier →
(source file, recorded context messages). -/
abbrev IndexData : Type := List (String × String × List String)

/-- Modelled from the spec: `Index.search` of the external `..log` module
(not under `src/`) — "load the persisted index ...; look up the
identifier", returning the originating file and the recorded context
lines, or nothing when the identifier is absent; lookup never mutates the
index. -/
def indexSearch (idx : IndexData) (id : String) : Option (String × List String) :=
  match idx with
  | [] => none
  | (k, v) :: rest => if k == id then some v else indexSearch rest id

/-- Observable effects of the `index` command: console prints and the
external pager invocation. -/
inductive IEvent where
  | print (s : String)
  | pager (s : String)
  deriving DecidableEq, Repr

/-- The `index` command (`log.py` lines 241-256) as a pure function: look
the identifier up in the persisted index; if absent print a not-found
message, otherwise build the context document and either page it or print
it.  The returned `IndexData` is the persisted index after the command,
making "no mutation" explicit. -/
def indexCmd (idx : IndexData) (id : String) (stdout : Bool) :
    List IEvent × IndexData :=
  match indexSearch idx id with
  | none => ([.print ("Index entry '" ++ id ++ "' not found.")], idx)
  | some (filename, messages) =>
    let output := "log_file: " ++ filename ++ "\n" ++
      "index_file: " ++ INDEX_FILE ++ "\n\n" ++
      String.intercalate "\n" messages
    if !stdout then ([.pager output], idx)
    else ([.print output], idx)

/-- The scan trace contains no index-write event: only `errorsCmd` itself
emits `writeIndex`, after the loop. -/
theorem scanItems_no_writeIndex
    (read : String → Nat → Int → Except String (List Entry))
    (time_to : Int) (server : String) (items : List FileItem) :
    Event.writeIndex ∉ (scanItems read time_to server items).1 := by
  induction items with
  | nil => simp [scanItems]
  | cons item rest ih =>
    simp only [scanItems, read_entries]
    cases hr : read item.file item.start_pos time_to with
    | error e => simp
    | ok entries =>
      cases h2 : scanItems read time_to server rest with
      | mk ev2 r2 =>
        have ih' := ih
        rw [h2] at ih'
        cases r2 with
        | error e => simpa using ih'
        | ok others => simpa using ih'

/-- No index-write event anywhere in the whole scan loop trace. -/
theorem scanAll_no_writeIndex
    (read : String → Nat → Int → Except String (List Entry))
    (time_to : Int) (files : List (String × List FileItem)) :
    Event.writeIndex ∉ (scanAll read time_to files).1 := by
  induction files with
  | nil => simp [scanAll]
  | cons p rest ih =>
    obtain ⟨server, items⟩ := p
    simp only [scanAll]
    cases h1 : scanItems read time_to server items with
    | mk ev r =>
      have h0 := scanItems_no_writeIndex read time_to server items
      rw [h1] at h0
      cases r with
      | error e => simpa using h0
      | ok data =>
        cases h2 : scanAll read time_to rest with
        | mk ev2 r2 =>
          have ih' := ih
          rw [h2] at ih'
          cases r2 with
          | error e =>
            simp only [List.mem_append]
            rintro (h | h)
            · exact h0 h
            · exact ih' h
          | ok others =>
            simp only [List.mem_append]
            rintro (h | h)
            · exact h0 h
            · exact ih' h

/-- The fixed leading trace of a run whose window resolution succeeded. -/
def headerEvents (rf : Option Int) (rt : Int) (set_name : String) : List Event :=
  [.print ("-- Time range: " ++ pyStrOptTime rf ++ " - " ++ toString rt),
   .print ("-- Searching files in the set '" ++ set_name ++ "'"),
   .getFiles]

/-- Branch equation for `errorsCmd`: resolution succeeded and the locator
found no files. -/
theorem errorsCmd_no_files (time_from time_to offset : Option Int) (now : Int)
    (set_name : String) (rf : Option Int) (rt : Int)
    (locate : Option Int → Int → List (String × List FileItem))
    (read : String → Nat → Int → Except String (List Entry))
    (hres : resolveWindow time_from time_to offset now = .ok (rf, rt))
    (hloc : locate rf rt = []) :
    errorsCmd time_from time_to offset now set_name locate read =
      (headerEvents rf rt set_name ++ [.print "-- No files found."], .ok []) := by
  unfold errorsCmd
  rw [hres]
  simp [hloc, headerEvents]

/-- Branch equation for `errorsCmd`: resolution succeeded and a read inside
the scan loop raised. -/
theorem errorsCmd_scan_error (time_from time_to offset : Option Int) (now : Int)
    (set_name : String) (rf : Option Int) (rt : Int)
    (locate : Option Int → Int → List (String × List FileItem))
    (read : String → Nat → Int → Except String (List Entry)) (e : String)
    (hres : resolveWindow time_from time_to offset now = .ok (rf, rt))
    (hfail : (scanAll read rt (locate rf rt)).2 = .error e) :
    errorsCmd time_from time_to offset now set_name locate read =
      (headerEvents rf rt set_name ++ (scanAll read rt (locate rf rt)).1,
       .error e) := by
  have hloc : locate rf rt ≠ [] := by
    intro h
    rw [h] at hfail
    simp [scanAll] at hfail
  unfold errorsCmd
  rw [hres]
  simp [hloc, hfail, headerEvents]

/-- Branch equation for `errorsCmd`: resolution succeeded, files were found
and every read succeeded. -/
theorem errorsCmd_scan_ok (time_from time_to offset : Option Int) (now : Int)
    (set_name : String) (rf : Option Int) (rt : Int)
    (locate : Option Int → Int → List (String × List FileItem))
    (read : String → Nat → Int → Except String (List Entry))
    (results : List (String × List (FileItem × List Entry)))
    (hres : resolveWindow time_from time_to offset now = .ok (rf, rt))
    (hloc : locate rf rt ≠ [])
    (hscan : (scanAll read rt (locate rf rt)).2 = .ok results) :
    errorsCmd time_from time_to offset now set_name locate read =
      (headerEvents rf rt set_name ++ (scanAll read rt (locate rf rt)).1 ++
         [.writeIndex] ++
         (if sortByTime (concatData results) = [] then
            [.print "-- No errors found."]
          else
            [.print "-- Completed", .displayTable,
             .print ("-- Errors: " ++ toString (sortByTime (concatData results)).length)]),
       .ok (sortByTime (concatData results))) := by
  unfold errorsCmd
  rw [hres]
  by_cases hd : sortByTime (concatData results) = []
  · simp [hloc, hscan, headerEvents, hd]
  · simp [hloc, hscan, headerEvents, hd]

/-- Fixture: one file span on server s1. -/
def itemA : FileItem := ⟨"fa", 0, 10⟩

/-- Fixture: one file span on server s2. -/
def itemB : FileItem := ⟨"fb", 0, 10⟩

/-- Fixture reader: each file yields one entry, both with time 5. -/
def readTie : String → Nat → Int → Except String (List Entry) := fun f _ _ =>
  if f == "fa" then .ok [⟨5, "a", "", "", ""⟩] else .ok [⟨5, "b", "", "", ""⟩]

/-- Fixture locator: server s1 before server s2. -/
def locateAB : Option Int → Int → List (String × List FileItem) := fun _ _ =>
  [("s1", [itemA]), ("s2", [itemB])]

/-- Fixture locator: the same spans, server s2 discovered first. -/
def locateBA : Option Int → Int → List (String × List FileItem) := fun _ _ =>
  [("s2", [itemB]), ("s1", [itemA])]

/-- Fixture locator: no files overlap the window. -/
def locateEmpty : Option Int → Int → List (String × List FileItem) := fun _ _ => []

/-- Fixture locator: a single file span on one server. -/
def locateA : Option Int → Int → List (String × List FileItem) := fun _ _ =>
  [("s1", [itemA])]

/-- Fixture reader yielding no error entries. -/
def readNone : String → Nat → Int → Except String (List Entry) := fun _ _ _ => .ok []

/-- Fixture reader that raises an I/O error on every file. -/
def readBoom : String → Nat → Int → Except String (List Entry) := fun _ _ _ =>
  .error "disk read failed"

/-- The scan results of the tie fixture run in s1-first discovery order. -/
def tieResults : List (String × List (FileItem × List Entry)) :=
  [("s1", [(itemA, [⟨5, "a", "", "fa", "s1"⟩])]),
   ("s2", [(itemB, [⟨5, "b", "", "fb", "s2"⟩])])]

/-- C1 (amended): for every scan run whose window resolves and whose reads
all succeed, the final displayed sequence is the stable time-sort of the
concatenation of the per-file result lists in server/file discovery order:
it is sorted by `time` ascending, is a permutation of that concatenation,
and entries with equal times keep their concatenation order; when all
entry times are pairwise distinct, the final order is moreover independent
of the discovery order (with equal times it is not — see the
counterexample). -/
theorem C1_sorted_stable (time_from time_to offset : Option Int) (now : Int)
    (set_name : String)
    (locate : Option Int → Int → List (String × List FileItem))
    (read : String → Nat → Int → Except String (List Entry))
    (rf : Option Int) (rt : Int)
    (results : List (String × List (FileItem × List Entry)))
    (hres : resolveWindow time_from time_to offset now = .ok (rf, rt))
    (hscan : (scanAll read rt (locate rf rt)).2 = .ok results) :
    (errorsCmd time_from time_to offset now set_name locate read).2 =
        .ok (sortByTime (concatData results)) ∧
    List.Pairwise (fun a b => a.time ≤ b.time) (sortByTime (concatData results)) ∧
    List.Perm (sortByTime (concatData results)) (concatData results) ∧
    (∀ t, (sortByTime (concatData results)).filter (fun x => x.time == t) =
        (concatData results).filter (fun x => x.time == t)) ∧
    (∀ other, List.Perm (concatData results) other →
        List.Pairwise (fun a b => ¬ a.time = b.time) (concatData results) →
        sortByTime (concatData results) = sortByTime other) := by
  refine ⟨?_, sortByTime_pairwise_le _, sortByTime_perm _,
    fun t => sortByTime_filter _ t,
    fun other hperm hdist => sortByTime_perm_invariant _ other hperm hdist⟩
  by_cases hloc : locate rf rt = []
  · have hres0 : results = [] := by
      rw [hloc] at hscan
      simp [scanAll] at hscan
      exact hscan
    subst hres0
    rw [errorsCmd_no_files _ _ _ _ _ _ _ _ _ hres hloc]
    simp [concatData, sortByTime]
  · rw [errorsCmd_scan_ok _ _ _ _ _ _ _ _ _ results hres hloc hscan]

/-- C1 counterexample for the claim as stated: two runs over the same file
spans with the same per-file results, differing only in server discovery
order, display different final sequences, because two entries share a time
and the stable sort keeps ties in discovery order — so the final order does
depend on discovery order. -/
theorem C1_counterexample :
    List.Perm (locateAB (some 0) 10) (locateBA (some 0) 10) ∧
    (errorsCmd (some 0) (some 10) none 0 "soa" locateAB readTie).2.toOption ≠
      (errorsCmd (some 0) (some 10) none 0 "soa" locateBA readTie).2.toOption := by
  constructor
  · decide
  · decide

/-- Witness for C1: the amended theorem applied to the concrete tie run. -/
theorem C1_witness :
    (errorsCmd (some 0) (some 10) none 0 "soa" locateAB readTie).2 =
        .ok (sortByTime (concatData tieResults)) ∧
    List.Pairwise (fun a b => a.time ≤ b.time) (sortByTime (concatData tieResults)) ∧
    List.Perm (sortByTime (concatData tieResults)) (concatData tieResults) ∧
    (∀ t, (sortByTime (concatData tieResults)).filter (fun x => x.time == t) =
        (concatData tieResults).filter (fun x => x.time == t)) ∧
    (∀ other, List.Perm (concatData tieResults) other →
        List.Pairwise (fun a b => ¬ a.time = b.time) (concatData tieResults) →
        sortByTime (concatData tieResults) = sortByTime other) :=
  C1_sorted_stable (some 0) (some 10) none 0 "soa" locateAB readTie
    (some 0) 10 tieResults rfl rfl

/-- C2: the classifier bound by `make_label_function` is total — whenever
substituting the captured groups into the template fails for any reason,
it returns exactly the sentinel `"__internal_error__"`, and whenever
substitution succeeds it returns the substituted string (so it never
propagates an error). -/
theorem C2_classifier_sentinel (label : String) (groups : List String) :
    (pyFormat label ("" :: groups) = none →
        make_label_function label groups = "__internal_error__") ∧
    (∀ s, pyFormat label ("" :: groups) = some s →
        make_label_function label groups = s) := by
  constructor
  · intro h
    simp [make_label_function, h]
  · intro s h
    simp [make_label_function, h]

/-- Witness for C2: a template with a placeholder beyond the captured
groups yields the sentinel, and a well-formed one substitutes. -/
theorem C2_witness :
    make_label_function "\x7b1\x7d" [] = "__internal_error__" ∧
    make_label_function "E=\x7b1\x7d" ["X"] = "E=X" :=
  ⟨(C2_classifier_sentinel "\x7b1\x7d" []).1 rfl,
   (C2_classifier_sentinel "E=\x7b1\x7d" ["X"]).2 "E=X" rfl⟩

/-- C3: the defaulting rules of time-window resolution, in order — an
absent `to` becomes the current time; an absent `from` with an offset
present becomes exactly `to - offset`; and when both `from` and `to` are
supplied with `from < to`, resolution never fails and returns exactly
`(from, to)` unchanged. -/
theorem C3_window_defaults (now : Int) :
    (∀ f off, resolveWindow (some f) none off now = .ok (some f, now)) ∧
    (∀ t off, resolveWindow none (some t) (some off) now = .ok (some (t - off), t)) ∧
    (∀ f t off, f < t → resolveWindow (some f) (some t) off now = .ok (some f, t)) := by
  refine ⟨fun f off => ?_, fun t off => ?_, fun f t off _ => ?_⟩
  · cases off <;> rfl
  · rfl
  · cases off <;> rfl

/-- Witness for C3 at concrete inputs. -/
theorem C3_witness :
    resolveWindow (some 1) none (some 7) 100 = .ok (some 1, 100) ∧
    resolveWindow none (some 50) (some 7) 100 = .ok (some 43, 50) ∧
    resolveWindow (some 1) (some 50) (some 7) 100 = .ok (some 1, 50) :=
  ⟨(C3_window_defaults 100).1 1 (some 7),
   (C3_window_defaults 100).2.1 50 7,
   (C3_window_defaults 100).2.2 1 50 (some 7) (by decide)⟩

/-- C4: when both `from` and `to` are absent — whatever the offset — the
`errors` command fails with the invalid-arguments error and an empty
event trace: no file location, no reading, no printing happened first. -/
theorem C4_missing_bounds (offset : Option Int) (now : Int) (set_name : String)
    (locate : Option Int → Int → List (String × List FileItem))
    (read : String → Nat → Int → Except String (List Entry)) :
    errorsCmd none none offset now set_name locate read =
      ([], .error "Either --from or --to must be specified.") := by
  unfold errorsCmd resolveWindow
  simp

/-- C5: rule selection is a pure, deterministic function of the requested
set names: `load_parser_rules` equals the filter-then-concatenate
characterisation — a rule definition is retained exactly when its owning
sets intersect the requested names — and the output preserves
rule-definition order; concretely a rule owned by set A is active for
request [A, B] and inactive for request [C].  Determinism is inherent: the
embedding is a pure function of its two arguments. -/
theorem C5_rule_selection (parsers_def : List ParserDef) (sets : List String) :
    load_parser_rules parsers_def sets = selectedRules parsers_def sets ∧
    load_parser_rules [⟨["A"], [⟨"pat", "lbl"⟩]⟩] ["A", "B"] =
      [⟨"pat", make_label_function "lbl"⟩] ∧
    load_parser_rules [⟨["A"], [⟨"pat", "lbl"⟩]⟩] ["C"] = [] := by
  refine ⟨?_, rfl, rfl⟩
  have h := load_parser_rules_go parsers_def sets []
  simpa [load_parser_rules] using h

/-- C6: when the locator returns an empty mapping for the resolved window,
the run prints the two header lines, consults the locator, prints
"-- No files found.", and returns successfully with no entries; the trace
holds no index-write event, so the persisted index is untouched. -/
theorem C6_no_files_report (time_from time_to offset : Option Int) (now : Int)
    (set_name : String) (rf : Option Int) (rt : Int)
    (locate : Option Int → Int → List (String × List FileItem))
    (read : String → Nat → Int → Except String (List Entry))
    (hres : resolveWindow time_from time_to offset now = .ok (rf, rt))
    (hloc : locate rf rt = []) :
    errorsCmd time_from time_to offset now set_name locate read =
      (headerEvents rf rt set_name ++ [.print "-- No files found."], .ok []) ∧
    Event.writeIndex ∉ (errorsCmd time_from time_to offset now set_name locate read).1 := by
  have h := errorsCmd_no_files time_from time_to offset now set_name rf rt
    locate read hres hloc
  refine ⟨h, ?_⟩
  rw [h]
  simp [headerEvents]

/-- Witness for C6: a concrete run whose locator finds nothing. -/
theorem C6_witness :
    errorsCmd (some 0) (some 10) none 0 "soa" locateEmpty readNone =
      (headerEvents (some 0) 10 "soa" ++ [.print "-- No files found."], .ok []) ∧
    Event.writeIndex ∉ (errorsCmd (some 0) (some 10) none 0 "soa" locateEmpty readNone).1 :=
  C6_no_files_report (some 0) (some 10) none 0 "soa" (some 0) 10
    locateEmpty readNone rfl rfl

/-- C7: when a read inside the scan loop raises, the error propagates and
the run aborts with exactly that error; every reader opened in the trace is
still closed (open/close events are balanced for every file), and no index
write is emitted, so none of the aborted run reaches the persisted index. -/
theorem C7_reader_closed_abort (time_from time_to offset : Option Int) (now : Int)
    (set_name : String) (rf : Option Int) (rt : Int)
    (locate : Option Int → Int → List (String × List FileItem))
    (read : String → Nat → Int → Except String (List Entry)) (e : String)
    (hres : resolveWindow time_from time_to offset now = .ok (rf, rt))
    (hfail : (scanAll read rt (locate rf rt)).2 = .error e) :
    (errorsCmd time_from time_to offset now set_name locate read).2 = .error e ∧
    (∀ f, countOpen f (errorsCmd time_from time_to offset now set_name locate read).1 =
        countClose f (errorsCmd time_from time_to offset now set_name locate read).1) ∧
    Event.writeIndex ∉ (errorsCmd time_from time_to offset now set_name locate read).1 := by
  rw [errorsCmd_scan_error _ _ _ _ _ _ _ _ _ e hres hfail]
  refine ⟨rfl, ?_, ?_⟩
  · intro f
    simp only
    rw [countOpen_append, countClose_append]
    have hb := scanAll_balanced read rt (locate rf rt) f
    have h0 : countOpen f (headerEvents rf rt set_name) = 0 := by
      simp [headerEvents, countOpen]
    have h0c : countClose f (headerEvents rf rt set_name) = 0 := by
      simp [headerEvents, countClose]
    rw [h0, h0c, hb]
  · simp only [List.mem_append]
    rintro (h | h)
    · simp [headerEvents] at h
    · exact scanAll_no_writeIndex read rt (locate rf rt) h

/-- Witness for C7: a concrete run whose only read raises. -/
theorem C7_witness :
    (errorsCmd (some 0) (some 10) none 0 "soa" locateA readBoom).2 =
        .error "disk read failed" ∧
    (∀ f, countOpen f (errorsCmd (some 0) (some 10) none 0 "soa" locateA readBoom).1 =
        countClose f (errorsCmd (some 0) (some 10) none 0 "soa" locateA readBoom).1) ∧
    Event.writeIndex ∉ (errorsCmd (some 0) (some 10) none 0 "soa" locateA readBoom).1 :=
  C7_reader_closed_abort (some 0) (some 10) none 0 "soa" (some 0) 10
    locateA readBoom "disk read failed" rfl rfl

/-- An identifier held by no record of the index is not found by the
search. -/
theorem indexSearch_eq_none (idx : IndexData) (id : String)
    (h : ∀ p ∈ idx, p.1 ≠ id) : indexSearch idx id = none := by
  induction idx with
  | nil => rfl
  | cons p rest ih =>
    obtain ⟨k, v⟩ := p
    have hk : k ≠ id := h (k, v) (by simp)
    simp only [indexSearch, beq_iff_eq, if_neg hk]
    exact ih (fun q hq => h q (by simp [hq]))

/-- C8: looking up an identifier absent from the persisted index prints
exactly the not-found message and returns normally; no pager event occurs
and the index is returned unchanged, so lookup never mutates it. -/
theorem C8_lookup_miss (idx : IndexData) (id : String) (stdout : Bool)
    (habsent : ∀ p ∈ idx, p.1 ≠ id) :
    indexCmd idx id stdout =
      ([.print ("Index entry '" ++ id ++ "' not found.")], idx) ∧
    (∀ s, IEvent.pager s ∉ (indexCmd idx id stdout).1) := by
  have h := indexSearch_eq_none idx id habsent
  constructor
  · simp [indexCmd, h]
  · intro s
    simp [indexCmd, h]

/-- Witness for C8: a concrete index without the requested identifier. -/
theorem C8_witness :
    indexCmd [("id1", ("f.log", ["m1", "m2"]))] "nope" false =
      ([.print ("Index entry '" ++ "nope" ++ "' not found.")],
       [("id1", ("f.log", ["m1", "m2"]))]) ∧
    (∀ s, IEvent.pager s ∉
      (indexCmd [("id1", ("f.log", ["m1", "m2"]))] "nope" false).1) :=
  C8_lookup_miss [("id1", ("f.log", ["m1", "m2"]))] "nope" false (by decide)

/-- A digit-only suffix always parses. -/
theorem pyDigitsAux_all (cs : List Char) :
    ∀ acc, cs.all pyIsDigit = true → ∃ n, pyDigitsAux acc cs = some n := by
  induction cs with
  | nil => exact fun acc _ => ⟨acc, rfl⟩
  | cons c cs ih =>
    intro acc hall
    simp only [List.all_cons, Bool.and_eq_true] at hall
    obtain ⟨hc, hcs⟩ := hall
    rw [pyDigitsAux.eq_def]
    simp only [hc, if_true]
    exact ih _ hcs

/-- A non-empty digit run always parses. -/
theorem pyDigits_all (cs : List Char) (hne : cs ≠ [])
    (hall : cs.all pyIsDigit = true) : ∃ n, pyDigits cs = some n := by
  cases cs with
  | nil => exact absurd rfl hne
  | cons c rest =>
    simp only [List.all_cons, Bool.and_eq_true] at hall
    obtain ⟨hc, hcs⟩ := hall
    simp only [pyDigits, hc, if_true]
    exact pyDigitsAux_all rest _ hcs

/-- dropWhile is the identity when the head test already fails. -/
theorem dropWhile_eq_self_of_all_false {α : Type} (p : α → Bool) (l : List α)
    (h : ∀ x ∈ l, p x = false) : l.dropWhile p = l := by
  cases l with
  | nil => rfl
  | cons a l =>
    have ha : p a = false := h a (List.mem_cons_self a l)
    simp [List.dropWhile_cons, ha]

/-- A decimal digit is not one of the whitespace characters. -/
theorem pyIsDigit_not_space (c : Char) (h : pyIsDigit c = true) :
    pyIsSpace c = false := by
  have h1 : c ≠ ' ' := fun hc => by subst hc; exact absurd h (by decide)
  have h2 : c ≠ '\t' := fun hc => by subst hc; exact absurd h (by decide)
  have h3 : c ≠ '\n' := fun hc => by subst hc; exact absurd h (by decide)
  have h4 : c ≠ '\r' := fun hc => by subst hc; exact absurd h (by decide)
  have h5 : c ≠ '\x0b' := fun hc => by subst hc; exact absurd h (by decide)
  have h6 : c ≠ '\x0c' := fun hc => by subst hc; exact absurd h (by decide)
  simp [pyIsSpace, h1, h2, h3, h4, h5, h6]

/-- A string of the claimed shape — optional sign then digits — parses
under the Python `int` model. -/
theorem pyIntChars_of_signed_digits (c : Char) (cs : List Char)
    (hne : (if c = '-' ∨ c = '+' then cs else c :: cs) ≠ [])
    (hall : (if c = '-' ∨ c = '+' then cs else c :: cs).all pyIsDigit = true) :
    ∃ n, pyIntChars (c :: cs) = some n := by
  have hcsd : cs.all pyIsDigit = true := by
    by_cases hsign : c = '-' ∨ c = '+'
    · rwa [if_pos hsign] at hall
    · rw [if_neg hsign] at hall
      simp only [List.all_cons, Bool.and_eq_true] at hall
      exact hall.2
  have hcspace : pyIsSpace c = false := by
    by_cases hsign : c = '-' ∨ c = '+'
    · rcases hsign with h | h <;> (subst h; decide)
    · rw [if_neg hsign] at hall
      simp only [List.all_cons, Bool.and_eq_true] at hall
      exact pyIsDigit_not_space c hall.1
  have hallns : ∀ x ∈ c :: cs, pyIsSpace x = false := by
    intro x hx
    rcases List.mem_cons.mp hx with hx | hx
    · subst hx; exact hcspace
    · exact pyIsDigit_not_space x ((List.all_eq_true.mp hcsd) x hx)
  have h1 : (c :: cs).dropWhile pyIsSpace = c :: cs :=
    dropWhile_eq_self_of_all_false _ _ hallns
  have h2 : ((c :: cs).reverse.dropWhile pyIsSpace) = (c :: cs).reverse :=
    dropWhile_eq_self_of_all_false _ _
      (fun x hx => hallns x (List.mem_reverse.mp hx))
  simp only [pyIntChars]
  rw [h1, h2, List.reverse_reverse]
  simp only [pySigned]
  by_cases hm : c = '-'
  · rw [if_pos hm]
    have hne2 : cs ≠ [] := by rwa [if_pos (Or.inl hm)] at hne
    obtain ⟨n, hn⟩ := pyDigits_all cs hne2 hcsd
    exact ⟨-(n : Int), by rw [hn]; rfl⟩
  · by_cases hp : c = '+'
    · rw [if_neg hm, if_pos hp]
      have hne2 : cs ≠ [] := by rwa [if_pos (Or.inr hp)] at hne
      obtain ⟨n, hn⟩ := pyDigits_all cs hne2 hcsd
      exact ⟨(n : Int), by rw [hn]; rfl⟩
    · rw [if_neg hm, if_neg hp]
      have hsign : ¬ (c = '-' ∨ c = '+') := by tauto
      rw [if_neg hsign] at hall
      obtain ⟨n, hn⟩ := pyDigits_all (c :: cs) (by simp) hall
      exact ⟨(n : Int), by rw [hn]; rfl⟩

/-- Every string of the claimed offset shape is accepted by the code. -/
theorem offsetClaimForm_accepted (s : String) (h : offsetClaimForm s = true) :
    ∃ d, type_cast_offset s = .ok d := by
  unfold offsetClaimForm at h
  cases hlast : s.toList.getLast? with
  | none => rw [hlast] at h; simp at h
  | some u =>
    rw [hlast] at h
    simp only [Bool.and_eq_true] at h
    obtain ⟨hu, hrest⟩ := h
    cases hmu : OFFSET_UNITS.lookup u with
    | none => rw [hmu] at hu; simp at hu
    | some mult =>
      cases hdrop : s.toList.dropLast with
      | nil => rw [hdrop] at hrest; simp at hrest
      | cons c cs =>
        rw [hdrop] at hrest
        simp only [Bool.and_eq_true, Bool.not_eq_true] at hrest
        obtain ⟨hne, hall⟩ := hrest
        have hne2 : (if c = '-' ∨ c = '+' then cs else c :: cs) ≠ [] := by
          intro hx
          rw [hx] at hne
          simp at hne
        obtain ⟨n, hn⟩ := pyIntChars_of_signed_digits c cs hne2 hall
        refine ⟨n * mult, ?_⟩
        have hp : pyInt (String.mk s.toList.dropLast) = some n := by
          rw [hdrop]
          exact hn
        simp only [type_cast_offset, hlast, hmu, hp]

/-- C9 (amended): the offset option accepts exactly the strings whose last
character is one of the unit letters h, d, m and whose preceding part is
accepted by the host-language integer parser — which also allows
surrounding whitespace, a sign, and underscores between digits, a strict
superset of the bare integer-then-unit shape the claim describes — with
the duration equal to that integer times the unit length; every other
non-empty string is rejected with the invalid-argument error, while the
empty string raises an index error instead. -/
theorem C9_offset_parsing (s : String) :
    (s = "" → type_cast_offset s = .error .indexError) ∧
    (∀ u mult n, s.toList.getLast? = some u → OFFSET_UNITS.lookup u = some mult →
        pyInt (String.mk s.toList.dropLast) = some n →
        type_cast_offset s = .ok (n * mult)) ∧
    (∀ u, s.toList.getLast? = some u → OFFSET_UNITS.lookup u = none →
        type_cast_offset s = .error (.badParameter "use values like '1h', '2d', '10m'.")) ∧
    (∀ u mult, s.toList.getLast? = some u → OFFSET_UNITS.lookup u = some mult →
        pyInt (String.mk s.toList.dropLast) = none →
        type_cast_offset s = .error (.badParameter "use values like '1h', '2d', '10m'.")) ∧
    (offsetClaimForm s = true → ∃ d, type_cast_offset s = .ok d) := by
  refine ⟨?_, ?_, ?_, ?_, offsetClaimForm_accepted s⟩
  · intro h
    subst h
    rfl
  · intro u mult n h1 h2 h3
    simp only [type_cast_offset, h1, h2, h3]
  · intro u h1 h2
    simp only [type_cast_offset, h1, h2]
  · intro u mult h1 h2 h3
    simp only [type_cast_offset, h1, h2, h3]

/-- C9 counterexample to the claim as stated: the code accepts "5 h" —
with whitespace between the integer and the unit letter, since the Python
`int` strips whitespace from "5 " — although "5 h" is not an integer
immediately followed by a unit letter, so the claimed accepted set is not
exact. -/
theorem C9_counterexample :
    type_cast_offset "5 h" = .ok 300 ∧ offsetClaimForm "5 h" = false :=
  ⟨rfl, rfl⟩

/-- Witness for C9 over each branch of the amended statement. -/
theorem C9_witness :
    type_cast_offset "" = .error .indexError ∧
    type_cast_offset "2d" = .ok (2 * 1440) ∧
    type_cast_offset "xq" = .error (.badParameter "use values like '1h', '2d', '10m'.") ∧
    type_cast_offset "_h" = .error (.badParameter "use values like '1h', '2d', '10m'.") ∧
    (∃ d, type_cast_offset "1h" = .ok d) :=
  ⟨(C9_offset_parsing "").1 rfl,
   (C9_offset_parsing "2d").2.1 'd' 1440 2 rfl rfl rfl,
   (C9_offset_parsing "xq").2.2.1 'q' rfl rfl,
   (C9_offset_parsing "_h").2.2.2.1 'h' 60 rfl rfl rfl,
   (C9_offset_parsing "1h").2.2.2.2 rfl⟩

/-- The scan results of the no-errors fixture run. -/
def emptyResults : List (String × List (FileItem × List Entry)) :=
  [("s1", [(itemA, [])])]

/-- C10: whenever the locator finds files and every read succeeds, the run
emits the index write — even when the scan yields zero error entries, in
which case the trace is exactly the header, the scan events, the index
write, and only then the "-- No errors found." message: the possibly empty
index of this run still replaces the persisted one. -/
theorem C10_index_rewritten (time_from time_to offset : Option Int) (now : Int)
    (set_name : String) (rf : Option Int) (rt : Int)
    (locate : Option Int → Int → List (String × List FileItem))
    (read : String → Nat → Int → Except String (List Entry))
    (results : List (String × List (FileItem × List Entry)))
    (hres : resolveWindow time_from time_to offset now = .ok (rf, rt))
    (hloc : locate rf rt ≠ [])
    (hscan : (scanAll read rt (locate rf rt)).2 = .ok results) :
    Event.writeIndex ∈ (errorsCmd time_from time_to offset now set_name locate read).1 ∧
    (sortByTime (concatData results) = [] →
      (errorsCmd time_from time_to offset now set_name locate read).1 =
        headerEvents rf rt set_name ++ (scanAll read rt (locate rf rt)).1 ++
          [.writeIndex, .print "-- No errors found."]) := by
  rw [errorsCmd_scan_ok _ _ _ _ _ _ _ _ _ results hres hloc hscan]
  constructor
  · simp
  · intro hd
    rw [if_pos hd]
    simp

/-- Witness for C10: a concrete files-found-but-no-errors run. -/
theorem C10_witness :
    Event.writeIndex ∈ (errorsCmd (some 0) (some 10) none 0 "soa" locateA readNone).1 ∧
    (sortByTime (concatData emptyResults) = [] →
      (errorsCmd (some 0) (some 10) none 0 "soa" locateA readNone).1 =
        headerEvents (some 0) 10 "soa" ++
          (scanAll readNone 10 (locateA (some 0) 10)).1 ++
          [.writeIndex, .print "-- No errors found."]) :=
  C10_index_rewritten (some 0) (some 10) none 0 "soa" (some 0) 10
    locateA readNone emptyResults rfl (by decide) rfl

end WlsAnalytics
